import Mathlib

/-!
Shallow embedding of `src/mta_tracker.py` (NYC subway tracker).

The embedded core is:
  * `is_express_train`            (mta_tracker.py lines 172-178)
  * `process_train_times`         (mta_tracker.py lines 180-228), split as in the
    source into the per-record extraction loop (`stopEvents`, `entityArrivals`,
    `feedArrivals`, lines 191-211), the ranking block (`rank`, lines 213-224),
    and the surrounding try/except (`processLoop` / `exceptFallback`, lines
    191 and 226-228);
  * the display-time formatting expression of `display_train_times`
    (`format_arrival_time`, line 241).

Conventions: machine integers are `Int`; a protobuf `HasField` test is an
`Option`; Python's `time.time()` is passed in as the parameter `current_time`;
the system-local timezone used by `datetime.fromtimestamp` is passed in as a
UTC offset in seconds (`tz_offset`); Python's `list.sort(key=...)`, a stable
ascending sort by key, is embedded as `List.insertionSort` by the same key,
which is the (unique) stable ascending sort.
-/

/-- One `stop_time_update` record: a stop id and, when the protobuf field
`arrival` is present, its `arrival.time`. -/
structure StopTimeUpdate where
  stop_id : String
  arrival : Option Int
deriving DecidableEq

/-- The `trip` descriptor of a `trip_update`: `route_id` and `trip_id`. -/
structure TripDescriptor where
  route_id : String
  trip_id : String
deriving DecidableEq

/-- One `trip_update` entity. `trip = none` models a `trip_update` whose `trip`
field accesses raise (the path caught by the bare `except` in
`is_express_train`). -/
structure TripUpdate where
  trip : Option TripDescriptor
  stop_time_update : List StopTimeUpdate
deriving DecidableEq

/-- One feed entity; `trip_update = none` models `HasField('trip_update')`
being false. -/
structure FeedEntity where
  trip_update : Option TripUpdate
deriving DecidableEq

/-- A decoded GTFS-realtime `FeedMessage`: its entity list. -/
structure FeedMessage where
  entity : List FeedEntity
deriving DecidableEq

/-- The tuples `(arrival_timestamp, direction, is_express)` built at
mta_tracker.py line 211. -/
abbrev ArrivalEvent := Int × String × Bool

/-- Python `str.lower()` (character-wise lowercasing; identical on the ASCII
data involved). -/
def strLower (s : String) : String :=
  String.mk (s.data.map Char.toLower)

/-- Python's `needle in haystack` substring test, on character lists. -/
def containsSub (n : List Char) : List Char → Bool
  | [] => n.isEmpty
  | c :: t => n.isPrefixOf (c :: t) || containsSub n t

/-- The literal express marker searched for in `is_express_train`
(mta_tracker.py line 176). -/
def expressMarker : String := "..express.."

/-- The body of the `try` block of `is_express_train` (mta_tracker.py lines
174-176); `Except.error` is the raising path taken when the `trip` field
accesses fail. -/
def is_express_train_raw (u : TripUpdate) : Except String Bool :=
  match u.trip with
  | none => Except.error "AttributeError"
  | some tr =>
      Except.ok (tr.route_id == "7X" ||
        containsSub expressMarker.data (strLower tr.trip_id).data)

/-- Function `is_express_train` (mta_tracker.py lines 172-178): the raw predicate with
its bare `except: return False`. -/
def is_express_train (u : TripUpdate) : Bool :=
  match is_express_train_raw u with
  | Except.ok b => b
  | Except.error _ => false

/-- Python `s.endswith(c)` for a one-character suffix. -/
def endsWithChar (s : String) (c : Char) : Bool :=
  match s.data.getLast? with
  | some d => d == c
  | none => false

/-- The body of the innermost loop of `process_train_times` (mta_tracker.py
lines 196-211): the events contributed by one `stop_time` record of `update`. -/
def stopEvents (line_type : String) (station_ids : List String)
    (current_time : Int) (update : TripUpdate) (stop_time : StopTimeUpdate) :
    List ArrivalEvent :=
  if station_ids.contains stop_time.stop_id then
    match stop_time.arrival with
    | none => []
    | some arrival_time =>
      if current_time < arrival_time then
        if line_type == "G" && endsWithChar stop_time.stop_id 'N' then []
        else
          let direction :=
            if line_type == "G" then "Church Ave-bound"
            else if endsWithChar stop_time.stop_id 'N' then "Manhattan-bound"
            else "Flushing-bound"
          [(arrival_time, direction, is_express_train update)]
      else []
  else []

/-- The body of the outer loop of `process_train_times` (mta_tracker.py lines
192-211): the events contributed by one feed entity. -/
def entityArrivals (line_type : String) (station_ids : List String)
    (current_time : Int) (e : FeedEntity) : List ArrivalEvent :=
  match e.trip_update with
  | none => []
  | some update =>
      update.stop_time_update.flatMap
        (stopEvents line_type station_ids current_time update)

/-- The `arrival_times` list built by the loop of `process_train_times`
(mta_tracker.py lines 188-211). -/
def feedArrivals (feed : FeedMessage) (station_ids : List String)
    (line_type : String) (current_time : Int) : List ArrivalEvent :=
  feed.entity.flatMap (entityArrivals line_type station_ids current_time)

/-- The sort key comparison of mta_tracker.py lines 218-219 and 224:
`key=lambda x: x[0]`. -/
def byTime (a b : ArrivalEvent) : Prop := a.1 ≤ b.1

instance : DecidableRel byTime :=
  fun a b => inferInstanceAs (Decidable (a.1 ≤ b.1))

instance : IsTotal ArrivalEvent byTime :=
  ⟨fun a b => le_total a.1 b.1⟩

instance : IsTrans ArrivalEvent byTime :=
  ⟨fun _ _ _ h h2 => le_trans h h2⟩

/-- Python `list.sort(key=lambda x: x[0])` / `sorted(..., key=lambda x: x[0])`:
the stable ascending sort by arrival timestamp. -/
def sortByTime (l : List ArrivalEvent) : List ArrivalEvent :=
  List.insertionSort byTime l

/-- The list comprehension of mta_tracker.py line 215. -/
def manhattan_bound (arrival_times : List ArrivalEvent) : List ArrivalEvent :=
  arrival_times.filter fun x => x.2.1 == "Manhattan-bound"

/-- The list comprehension of mta_tracker.py line 216. -/
def flushing_bound (arrival_times : List ArrivalEvent) : List ArrivalEvent :=
  arrival_times.filter fun x => x.2.1 == "Flushing-bound"

/-- The ranking block of `process_train_times` (mta_tracker.py lines 213-224):
partition by direction (for line `'7'`), stable-sort ascending by timestamp,
truncate (3 per direction for `'7'`, 6 total otherwise), concatenate
Manhattan-bound first. -/
def rank (line_type : String) (arrival_times : List ArrivalEvent) :
    List ArrivalEvent :=
  if line_type == "7" then
    (sortByTime (manhattan_bound arrival_times)).take 3 ++
      (sortByTime (flushing_bound arrival_times)).take 3
  else
    (sortByTime arrival_times).take 6

/-- The `try` block of `process_train_times` (mta_tracker.py lines 191-224) as
an exception-aware computation. Every step of the loop is total in the
embedding — the only fallible sub-step, the `trip` field access, is already
caught inside `is_express_train` — so the block always returns `Except.ok`. -/
def processLoop (feed : FeedMessage) (station_ids : List String)
    (line_type : String) (current_time : Int) :
    Except String (List ArrivalEvent) :=
  Except.ok (rank line_type (feedArrivals feed station_ids line_type current_time))

/-- The `except` clause of `process_train_times` (mta_tracker.py lines
226-228): any exception from the block yields `[]`. -/
def exceptFallback (x : Except String (List ArrivalEvent)) : List ArrivalEvent :=
  match x with
  | Except.ok l => l
  | Except.error _ => []

/-- Function `process_train_times` (mta_tracker.py lines 180-228). `feed = none` models
the falsy feed (`fetch_feed` returned `None`); `current_time` is the value of
`int(time.time())` at line 189. -/
def process_train_times (feed : Option FeedMessage) (station_ids : List String)
    (line_type : String) (current_time : Int) : List ArrivalEvent :=
  match feed with
  | none => []
  | some f => exceptFallback (processLoop f station_ids line_type current_time)

/-- Two-digit zero padding, as produced by `strftime` for `%I` and `%M`. -/
def pad2 (n : Nat) : List Char :=
  if n < 10 then '0' :: Nat.toDigits 10 n else Nat.toDigits 10 n

/-- Second-of-day of instant `t` in the local civil timezone, modelled as a
fixed UTC offset `tz_offset` in seconds (what `datetime.fromtimestamp`
computes for the wall clock). -/
def civilSecondOfDay (t tz_offset : Int) : Nat :=
  ((t + tz_offset) % 86400).toNat

/-- Expression `datetime.fromtimestamp(t).strftime("%I:%M %p")` (mta_tracker.py line 241):
zero-padded 12-hour hour, colon, zero-padded minute, space, `AM`/`PM`. -/
def strftimeIMp (t tz_offset : Int) : List Char :=
  let sod := civilSecondOfDay t tz_offset
  let hour := sod / 3600
  let minute := sod % 3600 / 60
  let hour12 := if hour % 12 = 0 then 12 else hour % 12
  pad2 hour12 ++ ':' :: (pad2 minute ++ ' ' ::
    (if hour < 12 then ['A', 'M'] else ['P', 'M']))

/-- The full display-time expression of mta_tracker.py line 241:
`strftime("%I:%M %p").lstrip("0").lower()`. -/
def format_arrival_time (t tz_offset : Int) : String :=
  String.mk (((strftimeIMp t tz_offset).dropWhile fun c => c == '0').map
    Char.toLower)

/-- Modelled from the spec (§4.3, §8 round-trip property): the independently
computed civil 24-hour hour for `(t, tz_offset)`. -/
def specHour (t tz_offset : Int) : Nat :=
  civilSecondOfDay t tz_offset / 3600

/-- Modelled from the spec: the independently computed civil minute. -/
def specMinute (t tz_offset : Int) : Nat :=
  civilSecondOfDay t tz_offset % 3600 / 60

/-- Modelled from the spec: the civil hour on a 12-hour clock. -/
def specHour12 (t tz_offset : Int) : Nat :=
  if specHour t tz_offset % 12 = 0 then 12 else specHour t tz_offset % 12

/-- Modelled from the spec (§4.3), amended by the code's actual shape: the
expected rendering `H:MM am|pm` — 12-hour clock, no leading zero on the hour,
lowercase suffix, and (as the code actually prints) a space before the
suffix. -/
def specDisplay (t tz_offset : Int) : String :=
  String.mk (Nat.toDigits 10 (specHour12 t tz_offset) ++ ':' ::
    (pad2 (specMinute t tz_offset) ++ ' ' ::
      (if specHour t tz_offset < 12 then ['a', 'm'] else ['p', 'm'])))

/-- A feed with a single qualifying stop-time record at station `721S` with
arrival timestamp `t`. -/
def singleStopFeed (t : Int) : FeedMessage :=
  ⟨[⟨some ⟨some ⟨"7", "trip"⟩, [⟨"721S", some t⟩]⟩⟩]⟩

/-- Removing from every trip of the feed the stop-time records satisfying
`p` (used to state that records satisfying `p` contribute no events). -/
def removeStops (p : StopTimeUpdate → Bool) (f : FeedMessage) : FeedMessage :=
  ⟨f.entity.map fun e =>
    ⟨e.trip_update.map fun u =>
      ⟨u.trip, u.stop_time_update.filter fun s => !(p s)⟩⟩⟩

/-- Concrete event list used by the C3 witness: two Manhattan-bound events
with the same timestamp, in a fixed feed order. -/
def c3Events : List ArrivalEvent :=
  [(5, "Flushing-bound", false), (3, "Manhattan-bound", false),
    (3, "Manhattan-bound", true)]

/-- C9: an absent feed (and likewise an empty one) yields `[]` for every
station set and line type, rather than an error. -/
theorem c9_absent_feed_empty (station_ids : List String) (line_type : String)
    (current_time : Int) :
    process_train_times none station_ids line_type current_time = [] ∧
    process_train_times (some ⟨[]⟩) station_ids line_type current_time = [] := by
  refine ⟨rfl, ?_⟩
  show exceptFallback (processLoop ⟨[]⟩ station_ids line_type current_time) = []
  have hfa : feedArrivals ⟨[]⟩ station_ids line_type current_time = [] := rfl
  cases h : line_type == "7" <;>
    simp [exceptFallback, processLoop, rank, hfa, h, manhattan_bound,
      flushing_bound, sortByTime, List.insertionSort]

lemma mem_stopEvents_gt {line_type : String} {station_ids : List String}
    {current_time : Int} {update : TripUpdate} {stop_time : StopTimeUpdate}
    {ev : ArrivalEvent}
    (h : ev ∈ stopEvents line_type station_ids current_time update stop_time) :
    current_time < ev.1 := by
  unfold stopEvents at h
  repeat' split at h
  all_goals simp_all

lemma mem_entityArrivals_gt {line_type : String} {station_ids : List String}
    {current_time : Int} {e : FeedEntity} {ev : ArrivalEvent}
    (h : ev ∈ entityArrivals line_type station_ids current_time e) :
    current_time < ev.1 := by
  unfold entityArrivals at h
  split at h
  · simp at h
  · obtain ⟨s, -, hs⟩ := List.mem_flatMap.mp h
    exact mem_stopEvents_gt hs

lemma mem_feedArrivals_gt {feed : FeedMessage} {station_ids : List String}
    {line_type : String} {current_time : Int} {ev : ArrivalEvent}
    (h : ev ∈ feedArrivals feed station_ids line_type current_time) :
    current_time < ev.1 := by
  obtain ⟨e, -, he⟩ := List.mem_flatMap.mp h
  exact mem_entityArrivals_gt he

lemma mem_sortByTime {l : List ArrivalEvent} {ev : ArrivalEvent} :
    ev ∈ sortByTime l ↔ ev ∈ l :=
  (List.perm_insertionSort byTime l).mem_iff

lemma mem_rank_subset {line_type : String} {l : List ArrivalEvent}
    {ev : ArrivalEvent} (h : ev ∈ rank line_type l) : ev ∈ l := by
  unfold rank at h
  split at h
  · rcases List.mem_append.mp h with h | h
    · have h1 := mem_sortByTime.mp ((List.take_sublist 3 _).subset h)
      exact (List.mem_filter.mp h1).1
    · have h1 := mem_sortByTime.mp ((List.take_sublist 3 _).subset h)
      exact (List.mem_filter.mp h1).1
  · exact mem_sortByTime.mp ((List.take_sublist 6 _).subset h)

/-- C2: every emitted ArrivalEvent has arrival timestamp strictly greater than
the reference instant `current_time`; a record whose predicted arrival is at or
before `current_time` (e.g. `current_time - 10`) produces no event. -/
theorem c2_strictly_future (feed : Option FeedMessage)
    (station_ids : List String) (line_type : String) (current_time : Int)
    (ev : ArrivalEvent)
    (h : ev ∈ process_train_times feed station_ids line_type current_time) :
    current_time < ev.1 := by
  match feed with
  | none => simp [process_train_times] at h
  | some f =>
      have h' : ev ∈ rank line_type
          (feedArrivals f station_ids line_type current_time) := h
      exact mem_feedArrivals_gt (mem_rank_subset h')

/-- Witness for C2 at a concrete feed: the single emitted event at timestamp
100 is strictly after the reference instant 0. -/
theorem c2_strictly_future_witness : (0 : Int) < 100 :=
  c2_strictly_future (some (singleStopFeed 100)) ["721S"] "7" 0
    (100, "Flushing-bound", false) (by decide)

/-- C10: the extraction loop never signals an error in the embedding (its only
fallible sub-step is caught inside `is_express_train`), so `process_train_times`
always returns the loop's list; and the `except` clause maps any exception to
`[]`. -/
theorem c10_total (feed : Option FeedMessage) (station_ids : List String)
    (line_type : String) (current_time : Int) :
    (∀ f, feed = some f →
      ∃ l, processLoop f station_ids line_type current_time = Except.ok l ∧
        process_train_times feed station_ids line_type current_time = l) ∧
    (∀ e : String, exceptFallback (Except.error e) = []) := by
  refine ⟨fun f hf => ⟨_, rfl, ?_⟩, fun _ => rfl⟩
  subst hf
  rfl

/-- Witness for C10 at a concrete feed. -/
theorem c10_total_witness :
    ∃ l, processLoop ⟨[]⟩ [] "7" 0 = Except.ok l ∧
      process_train_times (some ⟨[]⟩) [] "7" 0 = l :=
  (c10_total (some ⟨[]⟩) [] "7" 0).1 ⟨[]⟩ rfl

/-- C1 counterexample: with reference instant 0, a stop-time record predicted
at timestamp 100000 (more than 120 minutes ahead) is still emitted by
`process_train_times` — the code applies no look-ahead upper bound. -/
theorem c1_counterexample :
    process_train_times (some (singleStopFeed 100000)) ["721S"] "7" 0 =
      [(100000, "Flushing-bound", false)] ∧ (0 : Int) + 120 * 60 < 100000 :=
  ⟨by decide, by decide⟩

lemma process_singleStopFeed (t current_time : Int) (h : current_time < t) :
    process_train_times (some (singleStopFeed t)) ["721S"] "7" current_time =
      [(t, "Flushing-bound", false)] := by
  have hex : is_express_train ⟨some ⟨"7", "trip"⟩, [⟨"721S", some t⟩]⟩ = false := rfl
  have h1 : stopEvents "7" ["721S"] current_time
      ⟨some ⟨"7", "trip"⟩, [⟨"721S", some t⟩]⟩ ⟨"721S", some t⟩ =
      [(t, "Flushing-bound", false)] := by
    unfold stopEvents
    have hc : (["721S"].contains "721S") = true := by decide
    have he : endsWithChar "721S" 'N' = false := by decide
    simp [hc, he, hex, h]
  have h2 : feedArrivals (singleStopFeed t) ["721S"] "7" current_time =
      [(t, "Flushing-bound", false)] := by
    unfold feedArrivals singleStopFeed entityArrivals
    simp [h1]
  show exceptFallback (processLoop _ _ _ _) = _
  unfold exceptFallback processLoop
  rw [h2]
  unfold rank manhattan_bound flushing_bound sortByTime
  simp [List.insertionSort, List.orderedInsert]

/-- C1 amended: the extractor applies no upper look-ahead bound — for every
margin `bound` there is a feed whose emitted event lies more than `bound`
seconds after the reference instant. -/
theorem c1_no_lookahead_bound (bound current_time : Int) :
    ∃ feed : FeedMessage, ∃ ev ∈ process_train_times (some feed) ["721S"] "7"
      current_time, current_time + bound < ev.1 := by
  have hmax := le_max_left bound 0
  have hmax0 := le_max_right bound 0
  refine ⟨singleStopFeed (current_time + max bound 0 + 1),
    (current_time + max bound 0 + 1, "Flushing-bound", false), ?_, ?_⟩
  · rw [process_singleStopFeed _ _ (by omega)]
    simp
  · simp only []
    omega

lemma stopEvents_trip_congr (line_type : String) (station_ids : List String)
    (current_time : Int) (tr : Option TripDescriptor)
    (l l' : List StopTimeUpdate) (s : StopTimeUpdate) :
    stopEvents line_type station_ids current_time ⟨tr, l⟩ s =
      stopEvents line_type station_ids current_time ⟨tr, l'⟩ s := rfl

lemma flatMap_filter_of_nil {α β : Type} (g : α → List β) (p : α → Bool)
    (l : List α) (h : ∀ x ∈ l, p x = true → g x = []) :
    l.flatMap g = (l.filter fun x => !(p x)).flatMap g := by
  induction l with
  | nil => rfl
  | cons a t ih =>
    have ih' := ih fun x hx => h x (List.mem_cons_of_mem a hx)
    by_cases hp : p a = true
    · simp [List.flatMap_cons, List.filter_cons, hp,
        h a (List.mem_cons_self a t) hp, ih']
    · simp [List.flatMap_cons, List.filter_cons,
        Bool.eq_false_iff.mpr hp, ih']

lemma feedArrivals_removeStops (p : StopTimeUpdate → Bool)
    (station_ids : List String) (line_type : String) (current_time : Int)
    (h : ∀ u s, p s = true →
      stopEvents line_type station_ids current_time u s = []) :
    ∀ ents : List FeedEntity,
      feedArrivals (removeStops p ⟨ents⟩) station_ids line_type current_time =
        feedArrivals ⟨ents⟩ station_ids line_type current_time := by
  intro ents
  induction ents with
  | nil => rfl
  | cons e t ih =>
    show entityArrivals line_type station_ids current_time
        ⟨e.trip_update.map fun u =>
          ⟨u.trip, u.stop_time_update.filter fun s => !(p s)⟩⟩ ++
        feedArrivals (removeStops p ⟨t⟩) station_ids line_type current_time =
      entityArrivals line_type station_ids current_time e ++
        feedArrivals ⟨t⟩ station_ids line_type current_time
    rw [ih]
    congr 1
    obtain ⟨tu⟩ := e
    cases tu with
    | none => rfl
    | some u =>
      obtain ⟨tr, l⟩ := u
      show (l.filter fun s => !(p s)).flatMap
          (stopEvents line_type station_ids current_time
            ⟨tr, l.filter fun s => !(p s)⟩) =
        l.flatMap (stopEvents line_type station_ids current_time ⟨tr, l⟩)
      have hcg : stopEvents line_type station_ids current_time
          ⟨tr, l.filter fun s => !(p s)⟩ =
          stopEvents line_type station_ids current_time ⟨tr, l⟩ := by
        funext s
        exact stopEvents_trip_congr line_type station_ids current_time tr _ l s
      rw [hcg]
      exact (flatMap_filter_of_nil _ p l fun s _ hs => h ⟨tr, l⟩ s hs).symm

lemma stopEvents_G_excluded (station_ids : List String) (current_time : Int)
    (u : TripUpdate) (s : StopTimeUpdate)
    (hN : endsWithChar s.stop_id 'N' = true) :
    stopEvents "G" station_ids current_time u s = [] := by
  unfold stopEvents
  repeat' split
  all_goals simp_all

lemma stopEvents_no_arrival (line_type : String) (station_ids : List String)
    (current_time : Int) (u : TripUpdate) (s : StopTimeUpdate)
    (hA : s.arrival.isNone = true) :
    stopEvents line_type station_ids current_time u s = [] := by
  unfold stopEvents
  repeat' split
  all_goals simp_all

/-- C7: on line `'G'`, a stop-time record whose stop id ends in `'N'`
contributes no ArrivalEvent: deleting all such records from the feed leaves
the output unchanged, and a feed containing only such a record — even one that
otherwise qualifies (monitored station, arrival 300 s after now) — yields
`[]`. -/
theorem c7_directional_exclusion (feed : FeedMessage)
    (station_ids : List String) (current_time : Int) :
    process_train_times (some feed) station_ids "G" current_time =
      process_train_times
        (some (removeStops (fun s => endsWithChar s.stop_id 'N') feed))
        station_ids "G" current_time ∧
    process_train_times
      (some ⟨[⟨some ⟨some ⟨"G", "trip"⟩,
        [⟨"G26N", some (current_time + 300)⟩]⟩⟩]⟩)
      ["G26N"] "G" current_time = [] := by
  constructor
  · obtain ⟨ents⟩ := feed
    show rank "G" (feedArrivals ⟨ents⟩ station_ids "G" current_time) =
      rank "G" (feedArrivals (removeStops _ ⟨ents⟩) station_ids "G" current_time)
    rw [feedArrivals_removeStops _ station_ids "G" current_time
      (fun u s hs => stopEvents_G_excluded station_ids current_time u s hs) ents]
  · have h1 : stopEvents "G" ["G26N"] current_time
        ⟨some ⟨"G", "trip"⟩, [⟨"G26N", some (current_time + 300)⟩]⟩
        ⟨"G26N", some (current_time + 300)⟩ = [] :=
      stopEvents_G_excluded ["G26N"] current_time
        ⟨some ⟨"G", "trip"⟩, [⟨"G26N", some (current_time + 300)⟩]⟩
        ⟨"G26N", some (current_time + 300)⟩
        (show endsWithChar "G26N" 'N' = true by decide)
    show rank "G" (feedArrivals _ _ _ _) = []
    have h2 : feedArrivals
        ⟨[⟨some ⟨some ⟨"G", "trip"⟩,
          [⟨"G26N", some (current_time + 300)⟩]⟩⟩]⟩
        ["G26N"] "G" current_time = [] := by
      unfold feedArrivals entityArrivals
      simp [h1]
    rw [h2]
    rfl

/-- C8: a stop-time record with no predicted arrival contributes no
ArrivalEvent and does not disturb the rest of the feed: deleting all such
records from the feed leaves the output unchanged, for every line type. -/
theorem c8_no_arrival_skipped (feed : FeedMessage) (station_ids : List String)
    (line_type : String) (current_time : Int) :
    process_train_times (some feed) station_ids line_type current_time =
      process_train_times (some (removeStops (fun s => s.arrival.isNone) feed))
        station_ids line_type current_time := by
  obtain ⟨ents⟩ := feed
  show rank line_type (feedArrivals ⟨ents⟩ station_ids line_type current_time) =
    rank line_type
      (feedArrivals (removeStops _ ⟨ents⟩) station_ids line_type current_time)
  rw [feedArrivals_removeStops _ station_ids line_type current_time
    (fun u s hs =>
      stopEvents_no_arrival line_type station_ids current_time u s hs) ents]

lemma pairwise_take_drop {l : List ArrivalEvent} (hl : l.Pairwise byTime)
    (n : Nat) : ∀ x ∈ l.take n, ∀ y ∈ l.drop n, x.1 ≤ y.1 := by
  rw [← List.take_append_drop n l] at hl
  exact fun x hx y hy => (List.pairwise_append.mp hl).2.2 x hx y hy

lemma sortByTime_pairwise (l : List ArrivalEvent) :
    (sortByTime l).Pairwise byTime :=
  List.sorted_insertionSort byTime l

lemma sortByTime_of_sorted {l : List ArrivalEvent} (h : l.Pairwise byTime) :
    sortByTime l = l :=
  List.Sorted.insertionSort_eq h

lemma mem_manhattan_bound {l : List ArrivalEvent} {x : ArrivalEvent}
    (h : x ∈ manhattan_bound l) : x.2.1 == "Manhattan-bound" :=
  (List.mem_filter.mp h).2

lemma mem_flushing_bound {l : List ArrivalEvent} {x : ArrivalEvent}
    (h : x ∈ flushing_bound l) : x.2.1 == "Flushing-bound" :=
  (List.mem_filter.mp h).2

/-- C3: for line `'7'` the ranked output is the Manhattan-bound group followed
by the Flushing-bound group; each group is the truncation to 3 of a sorted
permutation of that direction's events (so it holds the at-most-3 earliest
ones, sorted ascending by arrival timestamp, never more than 3), and events
with equal timestamps keep their original feed order (stability of the
sort). -/
theorem c3_seven_ranking (events : List ArrivalEvent) :
    rank "7" events =
      (sortByTime (manhattan_bound events)).take 3 ++
        (sortByTime (flushing_bound events)).take 3 ∧
    List.Perm (sortByTime (manhattan_bound events)) (manhattan_bound events) ∧
    List.Perm (sortByTime (flushing_bound events)) (flushing_bound events) ∧
    ((sortByTime (manhattan_bound events)).take 3).Pairwise byTime ∧
    ((sortByTime (flushing_bound events)).take 3).Pairwise byTime ∧
    ((sortByTime (manhattan_bound events)).take 3).length ≤ 3 ∧
    ((sortByTime (flushing_bound events)).take 3).length ≤ 3 ∧
    (∀ x ∈ (sortByTime (manhattan_bound events)).take 3,
      ∀ y ∈ (sortByTime (manhattan_bound events)).drop 3, x.1 ≤ y.1) ∧
    (∀ x ∈ (sortByTime (flushing_bound events)).take 3,
      ∀ y ∈ (sortByTime (flushing_bound events)).drop 3, x.1 ≤ y.1) ∧
    (∀ a b : ArrivalEvent, a.1 = b.1 →
      [a, b].Sublist (manhattan_bound events) →
      [a, b].Sublist (sortByTime (manhattan_bound events))) ∧
    (∀ a b : ArrivalEvent, a.1 = b.1 →
      [a, b].Sublist (flushing_bound events) →
      [a, b].Sublist (sortByTime (flushing_bound events))) := by
  refine ⟨rfl, List.perm_insertionSort byTime _, List.perm_insertionSort byTime _,
    (sortByTime_pairwise _).sublist (List.take_sublist 3 _),
    (sortByTime_pairwise _).sublist (List.take_sublist 3 _),
    List.length_take_le 3 _, List.length_take_le 3 _,
    pairwise_take_drop (sortByTime_pairwise _) 3,
    pairwise_take_drop (sortByTime_pairwise _) 3,
    fun a b hab hs => List.pair_sublist_insertionSort (le_of_eq hab) hs,
    fun a b hab hs => List.pair_sublist_insertionSort (le_of_eq hab) hs⟩

/-- Witness for C3: applying the theorem to `c3Events`, the two equal-timestamp
Manhattan-bound events stay in feed order in the sorted group. -/
theorem c3_seven_ranking_witness :
    [((3 : Int), "Manhattan-bound", false),
      ((3 : Int), "Manhattan-bound", true)].Sublist
      (sortByTime (manhattan_bound c3Events)) :=
  (c3_seven_ranking c3Events).2.2.2.2.2.2.2.2.2.1
    (3, "Manhattan-bound", false) (3, "Manhattan-bound", true)
    (by decide) (by decide)

lemma take_sortByTime_pairwise (l : List ArrivalEvent) (n : Nat) :
    ((sortByTime l).take n).Pairwise byTime :=
  (sortByTime_pairwise l).sublist (List.take_sublist n _)

lemma manhattan_bound_append (a b : List ArrivalEvent) :
    manhattan_bound (a ++ b) = manhattan_bound a ++ manhattan_bound b :=
  List.filter_append _ _

lemma flushing_bound_append (a b : List ArrivalEvent) :
    flushing_bound (a ++ b) = flushing_bound a ++ flushing_bound b :=
  List.filter_append _ _

lemma manhattan_bound_eq_self {l : List ArrivalEvent}
    (h : ∀ x ∈ l, (x.2.1 == "Manhattan-bound") = true) :
    manhattan_bound l = l :=
  List.filter_eq_self.mpr h

lemma flushing_bound_eq_self {l : List ArrivalEvent}
    (h : ∀ x ∈ l, (x.2.1 == "Flushing-bound") = true) :
    flushing_bound l = l :=
  List.filter_eq_self.mpr h

lemma manhattan_bound_eq_nil {l : List ArrivalEvent}
    (h : ∀ x ∈ l, ¬((x.2.1 == "Manhattan-bound") = true)) :
    manhattan_bound l = [] :=
  List.filter_eq_nil_iff.mpr h

lemma flushing_bound_eq_nil {l : List ArrivalEvent}
    (h : ∀ x ∈ l, ¬((x.2.1 == "Flushing-bound") = true)) :
    flushing_bound l = [] :=
  List.filter_eq_nil_iff.mpr h

lemma rank_seven_eq (line_type : String) (h7 : (line_type == "7") = true)
    (l : List ArrivalEvent) :
    rank line_type l = (sortByTime (manhattan_bound l)).take 3 ++
      (sortByTime (flushing_bound l)).take 3 := by
  unfold rank
  rw [h7]
  rfl

lemma rank_other_eq (line_type : String) (h7 : (line_type == "7") = false)
    (l : List ArrivalEvent) :
    rank line_type l = (sortByTime l).take 6 := by
  unfold rank
  rw [h7]
  rfl

/-- C4: ranking is idempotent — for every line type, re-ranking an
already-ranked (partitioned, sorted, truncated, concatenated) list returns it
unchanged. -/
theorem c4_rank_idempotent (line_type : String) (events : List ArrivalEvent) :
    rank line_type (rank line_type events) = rank line_type events := by
  cases h7 : line_type == "7" with
  | false =>
    rw [rank_other_eq line_type h7, rank_other_eq line_type h7,
      sortByTime_of_sorted (take_sortByTime_pairwise events 6),
      List.take_take]
    simp
  | true =>
    have hAmem : ∀ x ∈ (sortByTime (manhattan_bound events)).take 3,
        (x.2.1 == "Manhattan-bound") = true := fun x hx =>
      mem_manhattan_bound (mem_sortByTime.mp ((List.take_sublist 3 _).subset hx))
    have hBmem : ∀ x ∈ (sortByTime (flushing_bound events)).take 3,
        (x.2.1 == "Flushing-bound") = true := fun x hx =>
      mem_flushing_bound (mem_sortByTime.mp ((List.take_sublist 3 _).subset hx))
    have hBnotM : ∀ x ∈ (sortByTime (flushing_bound events)).take 3,
        ¬((x.2.1 == "Manhattan-bound") = true) := by
      intro x hx
      have hB := eq_of_beq (hBmem x hx)
      simp [hB]
    have hAnotF : ∀ x ∈ (sortByTime (manhattan_bound events)).take 3,
        ¬((x.2.1 == "Flushing-bound") = true) := by
      intro x hx
      have hA := eq_of_beq (hAmem x hx)
      simp [hA]
    have h1 : manhattan_bound
        ((sortByTime (manhattan_bound events)).take 3 ++
          (sortByTime (flushing_bound events)).take 3) =
        (sortByTime (manhattan_bound events)).take 3 := by
      rw [manhattan_bound_append, manhattan_bound_eq_self hAmem,
        manhattan_bound_eq_nil hBnotM, List.append_nil]
    have h2 : flushing_bound
        ((sortByTime (manhattan_bound events)).take 3 ++
          (sortByTime (flushing_bound events)).take 3) =
        (sortByTime (flushing_bound events)).take 3 := by
      rw [flushing_bound_append, flushing_bound_eq_nil hAnotF,
        flushing_bound_eq_self hBmem, List.nil_append]
    have hkey : rank line_type
        ((sortByTime (manhattan_bound events)).take 3 ++
          (sortByTime (flushing_bound events)).take 3) =
        (sortByTime (manhattan_bound events)).take 3 ++
          (sortByTime (flushing_bound events)).take 3 := by
      rw [rank_seven_eq line_type h7, h1, h2,
        sortByTime_of_sorted (take_sortByTime_pairwise (manhattan_bound events) 3),
        sortByTime_of_sorted (take_sortByTime_pairwise (flushing_bound events) 3),
        List.take_take, List.take_take]
      simp
    rw [rank_seven_eq line_type h7 events]
    exact hkey

lemma containsSub_iff (n : List Char) (h : List Char) :
    containsSub n h = true ↔ ∃ pre post, h = pre ++ n ++ post := by
  induction h with
  | nil =>
    rw [containsSub, List.isEmpty_iff]
    constructor
    · rintro rfl
      exact ⟨[], [], rfl⟩
    · rintro ⟨pre, post, hp⟩
      rcases List.append_eq_nil.mp hp.symm with ⟨h1, h2⟩
      exact (List.append_eq_nil.mp h1).2
  | cons c t ih =>
    rw [containsSub, Bool.or_eq_true, ih, List.isPrefixOf_iff_prefix]
    constructor
    · rintro (⟨post, hp⟩ | ⟨pre, post, rfl⟩)
      · exact ⟨[], post, by rw [List.nil_append, hp]⟩
      · exact ⟨c :: pre, post, rfl⟩
    · rintro ⟨pre, post, hp⟩
      cases pre with
      | nil =>
        left
        rw [List.nil_append] at hp
        exact ⟨post, hp.symm⟩
      | cons c2 pre2 =>
        right
        rw [List.cons_append] at hp
        injection hp with h1 h2
        exact ⟨pre2, post, h2⟩

/-- C6: `is_express_train` returns true exactly when the route id equals the
express code `"7X"` or the lowercased trip id contains the marker
`"..express.."` as a substring (the code's case-insensitive match); and when
evaluating the raw predicate fails (missing `trip`, the `Except.error` path),
the result is `false` instead of an error. -/
theorem c6_express_iff (u : TripUpdate) :
    (is_express_train u = true ↔
      ∃ tr, u.trip = some tr ∧
        (tr.route_id = "7X" ∨ ∃ pre post : List Char,
          (strLower tr.trip_id).data = pre ++ expressMarker.data ++ post)) ∧
    ((is_express_train_raw u).isOk = false → is_express_train u = false) := by
  obtain ⟨tp, l⟩ := u
  cases tp with
  | none =>
    constructor
    · rw [show is_express_train ⟨none, l⟩ = false from rfl]
      simp
    · intro _
      rfl
  | some tr =>
    constructor
    · rw [show is_express_train ⟨some tr, l⟩ =
        (tr.route_id == "7X" ||
          containsSub expressMarker.data (strLower tr.trip_id).data) from rfl]
      rw [Bool.or_eq_true, beq_iff_eq, containsSub_iff]
      constructor
      · rintro (h | h)
        · exact ⟨tr, rfl, Or.inl h⟩
        · exact ⟨tr, rfl, Or.inr h⟩
      · rintro ⟨tr2, heq, h⟩
        injection heq with heq2
        subst heq2
        exact h
    · intro hk
      rw [show is_express_train_raw ⟨some tr, l⟩ =
        Except.ok (tr.route_id == "7X" ||
          containsSub expressMarker.data (strLower tr.trip_id).data) from rfl] at hk
      simp [Except.isOk, Except.toBool] at hk

/-- Witness for C6: on a trip update whose `trip` field access fails, the
predicate evaluates to `false`. -/
theorem c6_express_iff_witness : is_express_train ⟨none, []⟩ = false :=
  (c6_express_iff ⟨none, []⟩).2 (by decide)

lemma dropWhile_append_of_ne_nil {p : Char → Bool} {l : List Char}
    (r : List Char) (h : l.dropWhile p ≠ []) :
    (l ++ r).dropWhile p = l.dropWhile p ++ r := by
  induction l with
  | nil => exact absurd rfl h
  | cons c t ih =>
    rw [List.cons_append, List.dropWhile_cons, List.dropWhile_cons]
    by_cases hc : p c = true
    · rw [if_pos hc, if_pos hc]
      rw [List.dropWhile_cons, if_pos hc] at h
      exact ih h
    · rw [if_neg hc, if_neg hc, List.cons_append]

lemma pad2_dropWhile_zero :
    ∀ n, n < 13 → 1 ≤ n →
      (pad2 n).dropWhile (fun c => c == '0') = Nat.toDigits 10 n := by decide

lemma toDigits_map_toLower :
    ∀ n, n < 13 →
      (Nat.toDigits 10 n).map Char.toLower = Nat.toDigits 10 n := by decide

lemma toDigits_ne_nil : ∀ n, n < 13 → 1 ≤ n → Nat.toDigits 10 n ≠ [] := by
  decide

lemma toDigits_head_ne_zero :
    ∀ n, n < 13 → 1 ≤ n → (Nat.toDigits 10 n).head? ≠ some '0' := by decide

lemma pad2_map_toLower_60 :
    ∀ n, n < 60 → (pad2 n).map Char.toLower = pad2 n := by decide

lemma formatChars_eq (h12 m : Nat) (ampmU ampmL : List Char)
    (h1 : 1 ≤ h12) (h2 : h12 < 13) (hm : m < 60)
    (hL : ampmL = ampmU.map Char.toLower) :
    ((pad2 h12 ++ ':' :: (pad2 m ++ ' ' :: ampmU)).dropWhile
      (fun c => c == '0')).map Char.toLower =
    Nat.toDigits 10 h12 ++ ':' :: (pad2 m ++ ' ' :: ampmL) := by
  have hne : (pad2 h12).dropWhile (fun c => c == '0') ≠ [] := by
    rw [pad2_dropWhile_zero h12 h2 h1]
    exact toDigits_ne_nil h12 h2 h1
  rw [dropWhile_append_of_ne_nil _ hne, pad2_dropWhile_zero h12 h2 h1,
    List.map_append, toDigits_map_toLower h12 h2, List.map_cons,
    List.map_append, List.map_cons, pad2_map_toLower_60 m hm, hL]
  have hc : Char.toLower ':' = ':' := by decide
  have hs : Char.toLower ' ' = ' ' := by decide
  rw [hc, hs]

lemma civilSecondOfDay_lt (t tz_offset : Int) :
    civilSecondOfDay t tz_offset < 86400 := by
  unfold civilSecondOfDay
  have h2 := Int.emod_lt_of_pos (t + tz_offset)
    (show (0 : Int) < 86400 by norm_num)
  have h3 := Int.emod_nonneg (t + tz_offset)
    (show (86400 : Int) ≠ 0 by norm_num)
  omega

/-- C5 amended: for every instant and timezone offset, the displayed arrival
time is exactly the independently computed civil time `H:MM am|pm` — 12-hour
clock with hour in 1..12 and no leading zero on it, minutes below 60,
lowercase suffix — but with a space before the am/pm suffix (shape `9:41 pm`,
not `9:41pm`). -/
theorem c5_format_shape (t tz_offset : Int) :
    format_arrival_time t tz_offset = specDisplay t tz_offset ∧
    1 ≤ specHour12 t tz_offset ∧ specHour12 t tz_offset ≤ 12 ∧
    specMinute t tz_offset < 60 ∧
    (format_arrival_time t tz_offset).data.head? ≠ some '0' := by
  have hsod := civilSecondOfDay_lt t tz_offset
  have hhour : specHour t tz_offset < 24 := by
    unfold specHour
    omega
  have hm : specMinute t tz_offset < 60 := by
    unfold specMinute
    omega
  have h12b : 1 ≤ specHour12 t tz_offset ∧ specHour12 t tz_offset < 13 := by
    unfold specHour12
    split
    · omega
    · have : specHour t tz_offset % 12 < 12 := Nat.mod_lt _ (by norm_num)
      omega
  have hmain : format_arrival_time t tz_offset = specDisplay t tz_offset := by
    show String.mk (((pad2 (specHour12 t tz_offset) ++ ':' ::
        (pad2 (specMinute t tz_offset) ++ ' ' ::
          (if specHour t tz_offset < 12 then ['A', 'M'] else ['P', 'M']))).dropWhile
        (fun c => c == '0')).map Char.toLower) =
      String.mk (Nat.toDigits 10 (specHour12 t tz_offset) ++ ':' ::
        (pad2 (specMinute t tz_offset) ++ ' ' ::
          (if specHour t tz_offset < 12 then ['a', 'm'] else ['p', 'm'])))
    congr 1
    by_cases hlt : specHour t tz_offset < 12
    · rw [if_pos hlt, if_pos hlt]
      exact formatChars_eq _ _ _ _ h12b.1 h12b.2 hm (by decide)
    · rw [if_neg hlt, if_neg hlt]
      exact formatChars_eq _ _ _ _ h12b.1 h12b.2 hm (by decide)
  refine ⟨hmain, h12b.1, by omega, hm, ?_⟩
  rw [hmain]
  show (Nat.toDigits 10 (specHour12 t tz_offset) ++ ':' ::
    (pad2 (specMinute t tz_offset) ++ ' ' ::
      (if specHour t tz_offset < 12 then ['a', 'm'] else ['p', 'm']))).head? ≠
    some '0'
  obtain ⟨d, ds, hd⟩ := List.exists_cons_of_ne_nil
    (toDigits_ne_nil _ h12b.2 h12b.1)
  have hh := toDigits_head_ne_zero _ h12b.2 h12b.1
  rw [hd] at hh ⊢
  rw [List.cons_append, List.head?_cons]
  simpa using hh

/-- C5 counterexample: the code renders 21:41 civil time as `"9:41 pm"` — with
a space before the suffix — which is not the claimed shape `"9:41pm"`. -/
theorem c5_counterexample :
    format_arrival_time 78060 0 = "9:41 pm" ∧ "9:41 pm" ≠ "9:41pm" := by
  constructor <;> decide
